import Mathlib

/-!
Shallow embedding of `src/visualization.py` (class `ChartManager`).

The module draws a time-series chart of housing prices with an optional
linear-forecast overlay.  We embed:

* calendar dates (`Date`, proleptic Gregorian, as in Python `datetime`),
  with `toordinal` exactly as `datetime.date.toordinal`;
* `np.polyfit(x, y, 1)` / `np.poly1d` as the exact degree-1 least-squares
  solution over `ℚ` (machine floats are modelled by exact rationals);
* `pd.date_range(..., freq='ME')` as sequences of month-end dates;
* pandas dataframes as a record of column-presence flags plus a row list,
  with `astype(float)` as a fallible coercion of the price column;
* the `ChartManager` state (the `show_forecast` flag and the
  `current_data` attribute) together with a store of dataframe references,
  so that the Python reference/aliasing behaviour of `self.current_data = data`
  is visible;
* the rendering result as structured data (which lines are drawn, with which
  grouping keys, the legend / margin flags, the title shape and the stats),
  abstracting only the purely visual string formatting.
-/

/-- A calendar date (proleptic Gregorian), as used by `datetime` / pandas
timestamps in the source. -/
structure Date where
  year : Nat
  month : Nat
  day : Nat
deriving DecidableEq, Repr

/-- Default date used for `headD` / `getLastD` projections. -/
def date0 : Date := ⟨1, 1, 1⟩

instance : Inhabited Date := ⟨date0⟩

/-- Gregorian leap-year test, as in Python `calendar.isleap`. -/
def isLeap (y : Nat) : Bool := y % 4 == 0 && (y % 100 != 0 || y % 400 == 0)

/-- Number of days in a month (Gregorian). -/
def daysInMonth (y m : Nat) : Nat :=
  if m = 2 then (if isLeap y then 29 else 28)
  else if m = 4 ∨ m = 6 ∨ m = 9 ∨ m = 11 then 30
  else 31

/-- Days in the year strictly before month `m` (non-leap year). -/
def daysBeforeMonth : Nat → Nat
  | 2 => 31 | 3 => 59 | 4 => 90 | 5 => 120 | 6 => 151 | 7 => 181
  | 8 => 212 | 9 => 243 | 10 => 273 | 11 => 304 | 12 => 334
  | _ => 0

/-- `datetime.date.toordinal`: day number in the proleptic Gregorian
calendar, with 0001-01-01 being day 1. -/
def toordinal (d : Date) : Nat :=
  let y := d.year - 1
  365 * y + y / 4 + y / 400 - y / 100 + daysBeforeMonth d.month +
    (if 2 < d.month && isLeap d.year then 1 else 0) + d.day

/-- A structurally valid calendar date. -/
def Date.Valid (d : Date) : Prop :=
  1 ≤ d.year ∧ 1 ≤ d.month ∧ d.month ≤ 12 ∧ 1 ≤ d.day ∧ d.day ≤ daysInMonth d.year d.month

instance (d : Date) : Decidable d.Valid :=
  decidable_of_iff
    (1 ≤ d.year ∧ 1 ≤ d.month ∧ d.month ≤ 12 ∧ 1 ≤ d.day ∧ d.day ≤ daysInMonth d.year d.month)
    Iff.rfl

/-- Calendar order on dates (lexicographic on year, month, day). -/
def dateLe (a b : Date) : Prop :=
  a.year < b.year ∨ (a.year = b.year ∧ (a.month < b.month ∨ (a.month = b.month ∧ a.day ≤ b.day)))

instance (a b : Date) : Decidable (dateLe a b) :=
  decidable_of_iff
    (a.year < b.year ∨ (a.year = b.year ∧ (a.month < b.month ∨ (a.month = b.month ∧ a.day ≤ b.day))))
    Iff.rfl

/-- Linear month index of a date: months since year 0, ignoring the day. -/
def linOfDate (d : Date) : Nat := 12 * d.year + (d.month - 1)

/-- The month-end date of the month with linear index `l`. -/
def monthEndOfLin (l : Nat) : Date :=
  ⟨l / 12, l % 12 + 1, daysInMonth (l / 12) (l % 12 + 1)⟩

/-- The month-end date of `d`'s own month (the first month-end on-or-after
any valid `d`). -/
def monthEndOf (d : Date) : Date := ⟨d.year, d.month, daysInMonth d.year d.month⟩

/-- `pd.date_range(start, end, freq='ME')`: all month-end dates `t` with
`start ≤ t ≤ stop`, in increasing order. -/
def dateRangeME (start stop : Date) : List Date :=
  let s := linOfDate start
  let e := linOfDate stop + (if stop.day = daysInMonth stop.year stop.month then 1 else 0)
  (List.range (e - s)).map (fun i => monthEndOfLin (s + i))

/-- Modelled from the spec: the calendar date `n` years after `d`, with the
day clamped to the target month's length.  Used only to state the spec's
phrase "`years_to_forecast` years after the last input date". -/
def addYearsCapped (n : Nat) (d : Date) : Date :=
  ⟨d.year + n, d.month, min d.day (daysInMonth (d.year + n) d.month)⟩

/-- `np.polyfit(xs, ys, 1)` in exact arithmetic: the degree-1 least-squares
coefficients `(slope, intercept)` obtained from the normal equations
(the unique solution whenever the `xs` are not all equal). -/
def polyfit1 (xs ys : List ℚ) : ℚ × ℚ :=
  let n : ℚ := xs.length
  let sx := xs.sum
  let sy := ys.sum
  let sxx := (xs.map (fun x => x * x)).sum
  let sxy := ((xs.zip ys).map (fun p => p.1 * p.2)).sum
  let a := (n * sxy - sx * sy) / (n * sxx - sx * sx)
  let b := (sy - a * sx) / n
  (a, b)

/-- `np.poly1d coefficients` applied to `x` (degree 1). -/
def poly1eval (c : ℚ × ℚ) (x : ℚ) : ℚ := c.1 * x + c.2

/-- The date's ordinal, as the rational fed to the fit. -/
def dateOrdQ (d : Date) : ℚ := (toordinal d : ℚ)

/-- `ChartManager.calculate_forecast(dates, prices, years_to_forecast)`:
fit a line to (ordinal, price); build `future_dates` as
`date_range(start=last_date, periods=years*12+1, freq='ME')`, then
`all_dates = date_range(first_date, future_dates[-1], freq='ME')`, and
return `all_dates` with the fitted line evaluated at each of its ordinals.
`future_dates` consists of the `years*12+1` successive month-ends starting
with the month-end of `last_date`'s month, so its last element is the
month-end `years*12` months later. -/
def calculate_forecast (dates : List Date) (prices : List ℚ) (years_to_forecast : Nat) :
    List Date × List ℚ :=
  let xs := dates.map dateOrdQ
  let coefficients := polyfit1 xs prices
  let last_date := dates.getLastD date0
  let futureLast := monthEndOfLin (linOfDate last_date + years_to_forecast * 12)
  let first_date := dates.headD date0
  let all_dates := dateRangeME first_date futureLast
  (all_dates, all_dates.map (fun d => poly1eval coefficients (dateOrdQ d)))

/-- A cell of the `price` column before `astype(float)`.  `num` is an
already-float value, `numStr` a numeric-coercible non-float representation
(string/decimal/integer) carrying the number it parses to, `bad` a value on
which `astype(float)` raises. -/
inductive PCell where
  | num (q : ℚ)
  | numStr (q : ℚ)
  | bad
deriving DecidableEq, Repr

/-- The numeric value of a coercible price cell (`0` for `bad`, which is
only ever read after a successful coercion). -/
def cellVal : PCell → ℚ
  | .num q => q
  | .numStr q => q
  | .bad => 0

/-- `astype(float)` on a single cell. -/
def coerceCell : PCell → Option ℚ
  | .num q => some q
  | .numStr q => some q
  | .bad => none

/-- One dataframe row. -/
structure Row where
  date : Date
  price : PCell
  stateabbr : String
  city : String
  zipcode : String
  included_zipcodes : ℚ
deriving DecidableEq, Repr

def defaultRow : Row := ⟨date0, .num 0, "", "", "", 0⟩

instance : Inhabited Row := ⟨defaultRow⟩

/-- A pandas dataframe: which optional columns are present, plus the rows.
`date` and `price` are always present; `stateabbr`, `city`, `zipcode` and
`included_zipcodes` may be absent (`'col' in data.columns` is the flag). -/
structure DataFrame where
  hasStateabbr : Bool
  hasCity : Bool
  hasZipcode : Bool
  hasIncludedZipcodes : Bool
  rows : List Row
deriving DecidableEq, Repr

def emptyDF : DataFrame := ⟨false, false, false, false, []⟩

instance : Inhabited DataFrame := ⟨emptyDF⟩

/-- `data['price'].astype(float)` over the rows: fails on the first `bad`
cell, otherwise rewrites every price cell to its float value. -/
def coerceRows : List Row → Option (List Row)
  | [] => some []
  | r :: t =>
    match coerceCell r.price, coerceRows t with
    | some q, some t' => some ({ r with price := .num q } :: t')
    | _, _ => none

/-- `data['price'] = data['price'].astype(float)` on a dataframe. -/
def coercePrices (df : DataFrame) : Option DataFrame :=
  match coerceRows df.rows with
  | some rs => some ⟨df.hasStateabbr, df.hasCity, df.hasZipcode, df.hasIncludedZipcodes, rs⟩
  | none => none

/-- The canonical float-coerced dataframe (defined for any input; equals the
result of `coercePrices` whenever that succeeds). -/
def coercedDF (df : DataFrame) : DataFrame :=
  ⟨df.hasStateabbr, df.hasCity, df.hasZipcode, df.hasIncludedZipcodes,
    df.rows.map (fun r => { r with price := .num (cellVal r.price) })⟩

/-- The three optional location columns. -/
inductive LocCol where
  | state
  | city
  | zip
deriving DecidableEq, Repr

/-- Value of a location column in a row. -/
def colVal (r : Row) : LocCol → String
  | .state => r.stateabbr
  | .city => r.city
  | .zip => r.zipcode

/-- The nested probe of lines 77-83: `stateabbr`, then `city` only if
`stateabbr` is present, then `zipcode` only if `city` is. -/
def locCols (df : DataFrame) : List LocCol :=
  if df.hasStateabbr then
    .state :: (if df.hasCity then .city :: (if df.hasZipcode then [.zip] else []) else [])
  else []

/-- The groupby key of a row for the given location columns. -/
def rowKey (cols : List LocCol) (r : Row) : List String := cols.map (colVal r)

/-- Lexicographic order on group keys, as Python compares tuples of
strings (code-point order on each component). -/
def keyLeB : List String → List String → Bool
  | [], _ => true
  | _ :: _, [] => false
  | a :: as, b :: bs => if a < b then true else if a = b then keyLeB as bs else false

/-- Insert a key into a `keyLeB`-sorted list of keys. -/
def insertKey (k : List String) : List (List String) → List (List String)
  | [] => [k]
  | a :: t => if keyLeB k a then k :: a :: t else a :: insertKey k t

/-- Sort keys ascending, as pandas `groupby` orders its groups. -/
def sortKeys : List (List String) → List (List String)
  | [] => []
  | k :: t => insertKey k (sortKeys t)

/-- `data.groupby(location_cols)`: one group per distinct key, in sorted-key
order, each group holding its rows in original order. -/
def groupby (cols : List LocCol) (rows : List Row) : List (List String × List Row) :=
  (sortKeys ((rows.map (rowKey cols)).dedup)).map
    (fun k => (k, rows.filter (fun r => rowKey cols r == k)))

/-- Kind of a plotted line. -/
inductive LineKind where
  | actual
  | forecast
deriving DecidableEq, Repr

/-- One plotted line: its kind, the group key it was labelled with (none in
the no-location branch), and its data. -/
structure Line where
  kind : LineKind
  key : Option (List String)
  xs : List Date
  ys : List ℚ
deriving DecidableEq, Repr

/-- The forecast of one group (`calculate_forecast(group['date'], group['price'])`,
with the default `years_to_forecast=6`). -/
def groupFc (g : List String × List Row) : List Date × List ℚ :=
  calculate_forecast (g.2.map Row.date) (g.2.map (fun r => cellVal r.price)) 6

/-- The loop over `locations` (lines 103-116): per group an actual line and,
if the forecast flag is on, a dashed forecast line. -/
def groupLines (flag : Bool) : List (List String × List Row) → List Line
  | [] => []
  | g :: gs =>
    Line.mk .actual (some g.1) (g.2.map Row.date) (g.2.map (fun r => cellVal r.price)) ::
      ((if flag then [Line.mk .forecast (some g.1) (groupFc g).1 (groupFc g).2] else []) ++
        groupLines flag gs)

/-- Lines 97-126: build the drawn lines, the `forecast_values` variable as
left by the last loop iteration (if the flag is on), and
`has_multiple_lines`. -/
def buildLines (df : DataFrame) (flag : Bool) : List Line × Option (List ℚ) × Bool :=
  match locCols df with
  | [] =>
    let ds := df.rows.map Row.date
    let ps := df.rows.map (fun r => cellVal r.price)
    (Line.mk .actual none ds ps ::
        (if flag then [Line.mk .forecast none (calculate_forecast ds ps 6).1
          (calculate_forecast ds ps 6).2] else []),
      if flag then some (calculate_forecast ds ps 6).2 else none,
      false)
  | c :: cs =>
    let gs := groupby (c :: cs) df.rows
    (groupLines flag gs,
      if flag then some (groupFc (gs.getLastD ([], []))).2 else none,
      decide (1 < gs.length))

/-- Shape of the main title (lines 85-93), with the formatting abstracted to
the values that are interpolated. -/
inductive TitleMain where
  | city (c s : String)
  | state (s : String)
  | us
deriving DecidableEq, Repr

/-- Errors `update_plot` can raise. -/
inductive PlotErr where
  | coercion
  | keyError (col : String)
deriving DecidableEq, Repr

def firstRowD (df : DataFrame) : Row := df.rows.headD defaultRow

/-- `data['city'].iloc[0]`, raising `KeyError` when the column is absent. -/
def colCity (df : DataFrame) : Except PlotErr String :=
  if df.hasCity then .ok (firstRowD df).city else .error (.keyError "city")

/-- `data['stateabbr'].iloc[0]`, raising `KeyError` when absent. -/
def colStateabbr (df : DataFrame) : Except PlotErr String :=
  if df.hasStateabbr then .ok (firstRowD df).stateabbr else .error (.keyError "stateabbr")

/-- `data['included_zipcodes'].iloc[0]`, raising `KeyError` when absent. -/
def colIncludedZipcodes (df : DataFrame) : Except PlotErr ℚ :=
  if df.hasIncludedZipcodes then .ok (firstRowD df).included_zipcodes
  else .error (.keyError "included_zipcodes")

/-- Lines 85-93: derive the title.  The `city` branch reads `city`, then
`stateabbr`, then `included_zipcodes`; the `stateabbr` branch reads
`stateabbr` then `included_zipcodes`; the United-States branch still reads
`included_zipcodes`. -/
def mkTitle (df : DataFrame) : Except PlotErr (TitleMain × ℚ) :=
  if df.hasCity then do
    let c ← colCity df
    let s ← colStateabbr df
    let i ← colIncludedZipcodes df
    .ok (.city c s, i)
  else if df.hasStateabbr then do
    let s ← colStateabbr df
    let i ← colIncludedZipcodes df
    .ok (.state s, i)
  else do
    let i ← colIncludedZipcodes df
    .ok (.us, i)

/-- `Series.mean()` over the price column. -/
def listMean (l : List ℚ) : ℚ := l.sum / (l.length : ℚ)

/-- `Series.min()`. -/
def listMin : List ℚ → ℚ
  | [] => 0
  | a :: t => t.foldl min a

/-- `Series.max()`. -/
def listMax : List ℚ → ℚ
  | [] => 0
  | a :: t => t.foldl max a

/-- The values interpolated into the stats lines appended to the title
(lines 144-152). -/
structure Stats where
  mean : ℚ
  minP : ℚ
  maxP : ℚ
  forecastLast : Option ℚ
deriving DecidableEq, Repr

/-- The structured content of a rendered chart. -/
structure Chart where
  titleMain : TitleMain
  includedZips : ℚ
  lines : List Line
  stats : Stats
  legend : Bool
  bottomMargin : Bool
  tightLayout : Bool
deriving DecidableEq, Repr

/-- What ends up drawn on the canvas after a flush. -/
inductive Render where
  | placeholder
  | noData (msg : String)
  | chart (c : Chart)
  | errorMsg (m : String)
deriving DecidableEq, Repr

def noDataText : String := "No data found for the given criteria\nTry different search parameters"

/-- Lines 97-158 on an already-coerced dataframe with an already-derived
title: the drawn lines, the stats (the forecast stat reads the
`forecast_values` left over from the last loop iteration) and the layout
flags (legend and bottom margin iff `has_multiple_lines or show_forecast`,
tight layout otherwise). -/
def mkChart (df : DataFrame) (t : TitleMain × ℚ) (flag : Bool) : Chart :=
  let bl := buildLines df flag
  let ps := df.rows.map (fun r => cellVal r.price)
  { titleMain := t.1
    includedZips := t.2
    lines := bl.1
    stats :=
      { mean := listMean ps
        minP := listMin ps
        maxP := listMax ps
        forecastLast := if flag then some ((bl.2.1.getD []).getLastD 0) else none }
    legend := bl.2.2 || flag
    bottomMargin := bl.2.2 || flag
    tightLayout := !(bl.2.2 || flag) }

/-- The chart-producing tail of `update_plot` (title derivation may raise a
`KeyError`). -/
def renderData (df : DataFrame) (flag : Bool) : Except PlotErr Render :=
  match mkTitle df with
  | .error e => .error e
  | .ok t => .ok (.chart (mkChart df t flag))

/-- The mutable fields of a `ChartManager`: `show_forecast`, and the
`current_data` attribute (absent until first set) as a reference into the
dataframe store. -/
structure ChartState where
  show_forecast : Bool
  current_data : Option Nat
deriving DecidableEq, Repr

/-- State after `__init__`: `show_forecast = False`, no `current_data`. -/
def initState : ChartState := ⟨false, none⟩

def setCD (st : ChartState) (r : Option Nat) : ChartState := ⟨st.show_forecast, r⟩

def setFlag (st : ChartState) (b : Bool) : ChartState := ⟨b, st.current_data⟩

/-- The heap of dataframes; Python object references become indices. -/
abbrev Store := List DataFrame

/-- The dataframe a reference denotes (out-of-range references never arise
from the Python code; they denote the empty frame here). -/
def dataAt (σ : Store) (r : Nat) : DataFrame := σ.getD r emptyDF

/-- `ChartManager.update_plot(data)`.  Returns the store (the passed
dataframe is mutated in place by the price coercion), the new manager state,
and either the rendered result or the raised error.  Faithful ordering:
`current_data` is assigned *before* the price coercion, and the coercion
mutates the frame before the title lookups can raise. -/
def update_plot (σ : Store) (st : ChartState) (dref : Option Nat) :
    Store × ChartState × Except PlotErr Render :=
  match dref with
  | none => (σ, st, .ok (.noData noDataText))
  | some r =>
    let data := dataAt σ r
    if data.rows = [] then (σ, st, .ok (.noData noDataText))
    else
      let st1 := setCD st (some r)
      match coercePrices data with
      | none => (σ, st1, .error .coercion)
      | some df2 => (σ.set r df2, st1, renderData df2 st.show_forecast)

/-- `ChartManager.toggle_trend_line()`: flip the flag; redraw the stored
dataset iff the `current_data` attribute exists.  The third component is the
redraw outcome (`none` when no redraw happened). -/
def toggle_trend_line (σ : Store) (st : ChartState) :
    Store × ChartState × Option (Except PlotErr Render) :=
  let st1 := setFlag st (!st.show_forecast)
  match st1.current_data with
  | some r =>
    let res := update_plot σ st1 (some r)
    (res.1, res.2.1, some res.2.2)
  | none => (σ, st1, none)

/-- `ChartManager.show_error(message)`: renders the message, touches no
state. -/
def show_error (σ : Store) (st : ChartState) (msg : String) :
    Store × ChartState × Render :=
  (σ, st, .errorMsg msg)

/-- `ChartManager.setup_initial_plot()`: renders the placeholder, touches no
state. -/
def setup_initial_plot (σ : Store) (st : ChartState) : Store × ChartState × Render :=
  (σ, st, .placeholder)

/-- `ChartManager.clear_plot()`: clears and re-runs `setup_initial_plot`;
does not reset `show_forecast` or `current_data`. -/
def clear_plot (σ : Store) (st : ChartState) : Store × ChartState × Render :=
  setup_initial_plot σ st

/-- The public operations of `ChartManager`. -/
inductive Op where
  | update (dref : Option Nat)
  | toggle
  | showError (msg : String)
  | clearPlot
deriving DecidableEq, Repr

/-- Run one operation; the boolean records whether it raised. -/
def runOp (σ : Store) (st : ChartState) : Op → Store × ChartState × Bool
  | .update d =>
    let res := update_plot σ st d
    (res.1, res.2.1, match res.2.2 with | .error _ => true | .ok _ => false)
  | .toggle =>
    let res := toggle_trend_line σ st
    (res.1, res.2.1, match res.2.2 with | some (.error _) => true | _ => false)
  | .showError m =>
    let res := show_error σ st m
    (res.1, res.2.1, false)
  | .clearPlot =>
    let res := clear_plot σ st
    (res.1, res.2.1, false)

/-- Run a sequence of operations, stopping at the first raise (the flag
records that a raise happened). -/
def runOps (σ : Store) (st : ChartState) : List Op → Store × ChartState × Bool
  | [] => (σ, st, false)
  | op :: t =>
    let res := runOp σ st op
    if res.2.2 then (res.1, res.2.1, true) else runOps res.1 res.2.1 t

/-- The spec's §3 invariant on the manager state: whenever `current_data`
is set, the referenced dataset is non-empty and its price column is
numeric-coercible. -/
def ChartInv (σ : Store) (st : ChartState) : Prop :=
  ∀ r, st.current_data = some r →
    (dataAt σ r).rows ≠ [] ∧ (coercePrices (dataAt σ r)).isSome

/-! ### Basic lemmas about the embedding -/

lemma dataAt_eq {σ : Store} {r : Nat} {df : DataFrame} (h : σ.get? r = some df) :
    dataAt σ r = df := by
  unfold dataAt
  rw [List.getD_eq_getElem?_getD, ← List.get?_eq_getElem?, h]
  rfl

lemma coerceCell_val {p : PCell} {q : ℚ} (h : coerceCell p = some q) : cellVal p = q := by
  cases p <;> simp_all [coerceCell, cellVal]

lemma coerceRows_eq : ∀ {rs rs' : List Row}, coerceRows rs = some rs' →
    rs' = rs.map (fun r => { r with price := .num (cellVal r.price) })
  | [], rs', h => by
    unfold coerceRows at h
    simp at h
    subst h
    simp
  | r :: t, rs', h => by
    unfold coerceRows at h
    cases hcc : coerceCell r.price with
    | none => rw [hcc] at h; simp at h
    | some q =>
      rw [hcc] at h
      cases hct : coerceRows t with
      | none => rw [hct] at h; simp at h
      | some t' =>
        rw [hct] at h
        simp only [Option.some.injEq] at h
        rw [← h, coerceRows_eq hct]
        simp [coerceCell_val hcc]

lemma coercePrices_eq {df df' : DataFrame} (h : coercePrices df = some df') :
    df' = coercedDF df := by
  unfold coercePrices at h
  cases hcr : coerceRows df.rows with
  | none => rw [hcr] at h; simp at h
  | some rs =>
    rw [hcr] at h
    simp only [Option.some.injEq] at h
    rw [← h, coercedDF, coerceRows_eq hcr]

lemma coerceRows_coerced : ∀ rs : List Row,
    coerceRows (rs.map (fun r => { r with price := .num (cellVal r.price) })) =
      some (rs.map (fun r => { r with price := .num (cellVal r.price) }))
  | [] => rfl
  | r :: t => by
    simp only [List.map_cons]
    unfold coerceRows
    rw [coerceRows_coerced t]
    rfl

lemma coercePrices_coercedDF (df : DataFrame) :
    coercePrices (coercedDF df) = some (coercedDF df) := by
  unfold coercePrices coercedDF
  rw [coerceRows_coerced]

/-- The branch of `update_plot` taken for a non-empty coercible dataset. -/
lemma update_plot_some {σ : Store} {st : ChartState} {r : Nat} {df df' : DataFrame}
    (h : σ.get? r = some df) (hne : df.rows ≠ []) (hc : coercePrices df = some df') :
    update_plot σ st (some r) =
      (σ.set r df', setCD st (some r), renderData df' st.show_forecast) := by
  simp only [update_plot, dataAt_eq h, hc, if_neg hne]

lemma mkTitle_ok (df : DataFrame) (hi : df.hasIncludedZipcodes = true)
    (hcs : df.hasCity = true → df.hasStateabbr = true) :
    ∃ t, mkTitle df = .ok t := by
  unfold mkTitle colCity colStateabbr colIncludedZipcodes
  cases hc : df.hasCity with
  | true => simp [hc, hcs hc, hi, Bind.bind, Except.bind]
  | false =>
    cases hs : df.hasStateabbr <;> simp [hc, hs, hi, Bind.bind, Except.bind]

lemma update_plot_show_forecast (σ : Store) (st : ChartState) (d : Option Nat) :
    (update_plot σ st d).2.1.show_forecast = st.show_forecast := by
  unfold update_plot
  cases d with
  | none => rfl
  | some r =>
    dsimp only
    split
    · rfl
    · split <;> rfl

/-- C5: `update_plot` with an absent or empty dataset renders the "no data"
placeholder and leaves the store, `current_data` and `show_forecast` all
unchanged. -/
theorem update_plot_no_data_spec (σ : Store) (st : ChartState) (dref : Option Nat)
    (h : dref = none ∨ ∃ r, dref = some r ∧ (dataAt σ r).rows = []) :
    update_plot σ st dref = (σ, st, .ok (.noData noDataText)) := by
  rcases h with h | ⟨r, rfl, hr⟩
  · subst h; rfl
  · simp [update_plot, hr]

/-- Witness for C5 at a concrete input (`update_plot(None)`). -/
theorem update_plot_no_data_spec_witness :
    update_plot [] initState none = ([], initState, .ok (.noData noDataText)) :=
  update_plot_no_data_spec [] initState none (Or.inl rfl)

/-- C4: `toggle_trend_line` always flips `show_forecast`; it performs a
redraw iff `current_data` is set; when nothing was rendered yet only the
flag flips (store untouched, no render); when a dataset was stored, the
redraw is exactly `update_plot` on the stored reference with the new flag. -/
theorem toggle_trend_line_spec (σ : Store) (st : ChartState) :
    (toggle_trend_line σ st).2.1.show_forecast = !st.show_forecast ∧
    ((toggle_trend_line σ st).2.2.isSome ↔ st.current_data.isSome) ∧
    (st.current_data = none →
      toggle_trend_line σ st = (σ, setFlag st (!st.show_forecast), none)) ∧
    (∀ r, st.current_data = some r →
      (toggle_trend_line σ st).2.2 =
        some (update_plot σ (setFlag st (!st.show_forecast)) (some r)).2.2) := by
  unfold toggle_trend_line
  cases hcd : st.current_data with
  | none => simp [setFlag, hcd]
  | some r => simp [setFlag, hcd, update_plot_show_forecast]

/-- Witness for C4, instantiated at the fresh manager state. -/
theorem toggle_trend_line_spec_witness :
    (toggle_trend_line [] initState).2.1.show_forecast = !initState.show_forecast ∧
    ((toggle_trend_line [] initState).2.2.isSome ↔ initState.current_data.isSome) ∧
    (initState.current_data = none →
      toggle_trend_line [] initState = ([], setFlag initState (!initState.show_forecast), none)) ∧
    (∀ r, initState.current_data = some r →
      (toggle_trend_line [] initState).2.2 =
        some (update_plot [] (setFlag initState (!initState.show_forecast)) (some r)).2.2) :=
  toggle_trend_line_spec [] initState

/-- C9: a non-empty dataset with a `city` column but no `stateabbr` column
makes `update_plot` raise a `KeyError` on `stateabbr` (the probe left
`location_cols` empty, but the city title branch reads `stateabbr`
unconditionally). -/
theorem update_plot_city_requires_state (σ : Store) (st : ChartState) (r : Nat)
    (df : DataFrame) (h : σ.get? r = some df) (hne : df.rows ≠ [])
    (hc : (coercePrices df).isSome = true)
    (hcity : df.hasCity = true) (hstate : df.hasStateabbr = false) :
    (update_plot σ st (some r)).2.2 = .error (.keyError "stateabbr") := by
  obtain ⟨df', hdf'⟩ := Option.isSome_iff_exists.mp hc
  rw [update_plot_some h hne hdf']
  have he := coercePrices_eq hdf'
  subst he
  simp [renderData, mkTitle, colCity, colStateabbr, coercedDF, hcity, hstate,
    Bind.bind, Except.bind]

def dfCityOnly : DataFrame :=
  ⟨false, true, false, true, [⟨⟨2020, 1, 31⟩, .num 100, "", "Austin", "", 3⟩]⟩

/-- Witness for C9 at a concrete dataset. -/
theorem update_plot_city_requires_state_witness :
    (update_plot [dfCityOnly] initState (some 0)).2.2 = .error (.keyError "stateabbr") :=
  update_plot_city_requires_state [dfCityOnly] initState 0 dfCityOnly rfl
    (by decide) (by decide) rfl rfl

/-- C10: every title branch of `update_plot` reads `included_zipcodes` from
the first row, so a non-empty dataset without that column raises a
`KeyError` on it — including the "United States" branch where neither
`stateabbr` nor `city` is present. -/
theorem update_plot_requires_included_zipcodes (σ : Store) (st : ChartState) (r : Nat)
    (df : DataFrame) (h : σ.get? r = some df) (hne : df.rows ≠ [])
    (hc : (coercePrices df).isSome = true)
    (hincl : df.hasIncludedZipcodes = false)
    (hcs : df.hasCity = true → df.hasStateabbr = true) :
    (update_plot σ st (some r)).2.2 = .error (.keyError "included_zipcodes") := by
  obtain ⟨df', hdf'⟩ := Option.isSome_iff_exists.mp hc
  rw [update_plot_some h hne hdf']
  have he := coercePrices_eq hdf'
  subst he
  cases hcity : df.hasCity with
  | true =>
    simp [renderData, mkTitle, colCity, colStateabbr, colIncludedZipcodes, coercedDF,
      hcity, hcs hcity, hincl, Bind.bind, Except.bind]
  | false =>
    cases hstate : df.hasStateabbr <;>
      simp [renderData, mkTitle, colCity, colStateabbr, colIncludedZipcodes, coercedDF,
        hcity, hstate, hincl, Bind.bind, Except.bind]

def dfNoIncluded : DataFrame :=
  ⟨false, false, false, false, [⟨⟨2020, 1, 31⟩, .num 100, "", "", "", 3⟩]⟩

/-- Witness for C10 at a concrete dataset (the United-States branch). -/
theorem update_plot_requires_included_zipcodes_witness :
    (update_plot [dfNoIncluded] initState (some 0)).2.2 =
      .error (.keyError "included_zipcodes") :=
  update_plot_requires_included_zipcodes [dfNoIncluded] initState 0 dfNoIncluded rfl
    (by decide) (by decide) rfl (by intro h; exact absurd h (by decide))

/-- C8: for a non-empty coercible dataset, `update_plot` overwrites the
caller's dataframe in place (the entry at the same reference becomes the
float-coerced frame; no new entry is allocated) and stores that same
reference — not a copy — as `current_data`, so a later external mutation of
the frame is observed by the redraw that `toggle_trend_line` performs. -/
theorem update_plot_mutates_in_place (σ : Store) (st : ChartState) (r : Nat)
    (df : DataFrame) (h : σ.get? r = some df) (hne : df.rows ≠ [])
    (hc : (coercePrices df).isSome = true) :
    (update_plot σ st (some r)).1 = σ.set r (coercedDF df) ∧
    (update_plot σ st (some r)).1.length = σ.length ∧
    (update_plot σ st (some r)).2.1.current_data = some r ∧
    (coercedDF df).rows.map Row.price =
      df.rows.map (fun rw => PCell.num (cellVal rw.price)) ∧
    (∀ df₂ : DataFrame, df₂.rows = [] →
      (toggle_trend_line ((update_plot σ st (some r)).1.set r df₂)
        (update_plot σ st (some r)).2.1).2.2 = some (.ok (.noData noDataText))) := by
  obtain ⟨df', hdf'⟩ := Option.isSome_iff_exists.mp hc
  have he := coercePrices_eq hdf'
  rw [update_plot_some h hne hdf', ← he]
  have hr : r < σ.length := by
    by_contra hge
    rw [List.get?_eq_getElem?, List.getElem?_eq_none (Nat.le_of_not_lt hge)] at h
    exact Option.noConfusion h
  refine ⟨rfl, List.length_set σ r df', rfl, ?_, ?_⟩
  · rw [he]
    simp [coercedDF, Function.comp]
  · intro df₂ h₂
    have hget : ((σ.set r df').set r df₂).get? r = some df₂ := by
      rw [List.get?_eq_getElem?, List.getElem?_set_self]
      rw [List.length_set]; exact hr
    simp only [toggle_trend_line, setFlag, setCD]
    rw [update_plot_no_data_spec _ _ (some r) (Or.inr ⟨r, rfl, ?_⟩)]
    rw [dataAt_eq hget, h₂]

def dfMutable : DataFrame :=
  ⟨false, false, false, true, [⟨⟨2020, 1, 31⟩, .numStr 100, "", "", "", 3⟩]⟩

/-- Witness for C8 at a concrete dataset whose price column is stored
non-float (so the in-place overwrite is visible). -/
theorem update_plot_mutates_in_place_witness :
    (update_plot [dfMutable] initState (some 0)).1 = [dfMutable].set 0 (coercedDF dfMutable) ∧
    (update_plot [dfMutable] initState (some 0)).1.length = [dfMutable].length ∧
    (update_plot [dfMutable] initState (some 0)).2.1.current_data = some 0 ∧
    (coercedDF dfMutable).rows.map Row.price =
      dfMutable.rows.map (fun rw => PCell.num (cellVal rw.price)) ∧
    (∀ df₂ : DataFrame, df₂.rows = [] →
      (toggle_trend_line ((update_plot [dfMutable] initState (some 0)).1.set 0 df₂)
        (update_plot [dfMutable] initState (some 0)).2.1).2.2 =
          some (.ok (.noData noDataText))) :=
  update_plot_mutates_in_place [dfMutable] initState 0 dfMutable rfl (by decide) (by decide)

lemma dataAt_get? {σ : Store} {r : Nat} (h : (dataAt σ r).rows ≠ []) :
    σ.get? r = some (dataAt σ r) := by
  cases hg : σ.get? r with
  | none =>
    exfalso
    apply h
    unfold dataAt
    rw [List.getD_eq_getElem?_getD, ← List.get?_eq_getElem?, hg]
    rfl
  | some df => rw [dataAt_eq hg]

lemma get?_lt_length {σ : Store} {r : Nat} {df : DataFrame} (h : σ.get? r = some df) :
    r < σ.length := by
  by_contra hge
  rw [List.get?_eq_getElem?, List.getElem?_eq_none (Nat.le_of_not_lt hge)] at h
  exact Option.noConfusion h

lemma dataAt_set_self {σ : Store} {r : Nat} (df : DataFrame) (hr : r < σ.length) :
    dataAt (σ.set r df) r = df := by
  unfold dataAt
  rw [List.getD_eq_getElem?_getD, List.getElem?_set_self hr]
  rfl

lemma chartInv_setFlag {σ : Store} {st : ChartState} (b : Bool) (h : ChartInv σ st) :
    ChartInv σ (setFlag st b) := fun r hr => h r hr

/-- A non-raising `update_plot` call re-establishes the invariant. -/
lemma update_plot_inv (σ : Store) (st : ChartState) (d : Option Nat)
    (h : ChartInv σ st) (rend : Render)
    (hok : (update_plot σ st d).2.2 = .ok rend) :
    ChartInv (update_plot σ st d).1 (update_plot σ st d).2.1 := by
  cases d with
  | none => exact h
  | some r =>
    by_cases hrows : (dataAt σ r).rows = []
    · rw [update_plot_no_data_spec σ st (some r) (Or.inr ⟨r, rfl, hrows⟩)]
      exact h
    · have hg := dataAt_get? hrows
      have hr : r < σ.length := get?_lt_length hg
      cases hcp : coercePrices (dataAt σ r) with
      | none =>
        exfalso
        simp only [update_plot, hcp, if_neg hrows] at hok
        exact Except.noConfusion hok
      | some df' =>
        rw [update_plot_some hg hrows hcp]
        intro r' hr'
        simp only [setCD] at hr'
        cases hr'
        rw [dataAt_set_self df' hr]
        have he := coercePrices_eq hcp
        subst he
        constructor
        · simpa [coercedDF] using hrows
        · rw [coercePrices_coercedDF]
          rfl

/-- A non-raising operation preserves the invariant. -/
lemma runOp_preserves (σ : Store) (st : ChartState) (op : Op)
    (h : ChartInv σ st) (hok : (runOp σ st op).2.2 = false) :
    ChartInv (runOp σ st op).1 (runOp σ st op).2.1 := by
  cases op with
  | update d =>
    simp only [runOp] at hok ⊢
    cases hres : (update_plot σ st d).2.2 with
    | error e => rw [hres] at hok; exact absurd hok (by simp)
    | ok rend => exact update_plot_inv σ st d h rend hres
  | toggle =>
    simp only [runOp, toggle_trend_line] at hok ⊢
    cases hcd : (setFlag st (!st.show_forecast)).current_data with
    | none => simp only [hcd]; exact chartInv_setFlag _ h
    | some r =>
      simp only [hcd] at hok ⊢
      have h1 : ChartInv σ (setFlag st (!st.show_forecast)) := chartInv_setFlag _ h
      cases hres : (update_plot σ (setFlag st (!st.show_forecast)) (some r)).2.2 with
      | error e => rw [hres] at hok; exact absurd hok (by simp)
      | ok rend => exact update_plot_inv σ _ (some r) h1 rend hres
  | showError m => exact h
  | clearPlot => exact h

/-- C2 (amended): provided no operation of the sequence raised, the §3
invariant holds at the end: whenever `current_data` is set it references a
non-empty, price-coercible dataset. -/
theorem chart_inv_when_no_raise (ops : List Op) (σ₀ : Store) (st₀ : ChartState)
    (h0 : ChartInv σ₀ st₀)
    (hok : (runOps σ₀ st₀ ops).2.2 = false) :
    ChartInv (runOps σ₀ st₀ ops).1 (runOps σ₀ st₀ ops).2.1 := by
  induction ops generalizing σ₀ st₀ with
  | nil => exact h0
  | cons op t ih =>
    simp only [runOps] at hok ⊢
    cases hflag : (runOp σ₀ st₀ op).2.2 with
    | true =>
      rw [hflag] at hok
      simp at hok
    | false =>
      rw [hflag] at hok
      simp only [Bool.false_eq_true, if_false] at hok
      simp only [Bool.false_eq_true, if_false]
      exact ih _ _ (runOp_preserves σ₀ st₀ op h0 hflag) hok

def dfGood : DataFrame :=
  ⟨false, false, false, true,
    [⟨⟨2020, 1, 31⟩, .num 100, "", "", "", 3⟩, ⟨⟨2020, 2, 29⟩, .numStr 200, "", "", "", 3⟩]⟩

/-- Witness for the amended C2 at a concrete operation sequence. -/
theorem chart_inv_when_no_raise_witness :
    ChartInv (runOps [dfGood] initState [.update (some 0)]).1
      (runOps [dfGood] initState [.update (some 0)]).2.1 :=
  chart_inv_when_no_raise [.update (some 0)] [dfGood] initState
    (fun r hr => by simp [initState] at hr) (by decide)

def dfBadPrice : DataFrame :=
  ⟨false, false, false, true, [⟨⟨2020, 1, 31⟩, .bad, "", "", "", 3⟩]⟩

/-- C2 counterexample: a single `update_plot` on a non-empty dataset whose
price column is not numeric-coercible raises during coercion, yet leaves
`current_data` set to that very dataset — which violates the claimed
invariant (the dataset referenced by `current_data` is not coercible). -/
theorem chart_inv_counterexample :
    (runOps [dfBadPrice] initState [.update (some 0)]).2.2 = true ∧
    (runOps [dfBadPrice] initState [.update (some 0)]).2.1.current_data = some 0 ∧
    (coercePrices (dataAt (runOps [dfBadPrice] initState [.update (some 0)]).1 0)).isSome
      = false := by decide

lemma renderData_ok {df : DataFrame} {t : TitleMain × ℚ} (flag : Bool)
    (h : mkTitle df = .ok t) :
    renderData df flag = .ok (.chart (mkChart df t flag)) := by
  unfold renderData
  rw [h]

lemma colVal_coerce (r : Row) (q : PCell) (c : LocCol) :
    colVal { r with price := q } c = colVal r c := by
  cases c <;> rfl

lemma rowKey_coerce (cols : List LocCol) (r : Row) (q : PCell) :
    rowKey cols { r with price := q } = rowKey cols r := by
  unfold rowKey
  exact List.map_congr_left (fun c _ => colVal_coerce r q c)

lemma map_rowKey_coerced (cols : List LocCol) (df : DataFrame) :
    (coercedDF df).rows.map (rowKey cols) = df.rows.map (rowKey cols) := by
  simp only [coercedDF, List.map_map]
  exact List.map_congr_left (fun r _ => rowKey_coerce cols r _)

lemma locCols_coerced (df : DataFrame) : locCols (coercedDF df) = locCols df := rfl

lemma length_insertKey (k : List String) : ∀ l, (insertKey k l).length = l.length + 1
  | [] => rfl
  | a :: t => by
    unfold insertKey
    split
    · rfl
    · simp [length_insertKey k t]

lemma length_sortKeys : ∀ l, (sortKeys l).length = l.length
  | [] => rfl
  | k :: t => by
    unfold sortKeys
    rw [length_insertKey, length_sortKeys t]
    rfl

lemma mem_insertKey {x k : List String} : ∀ (l : List (List String)),
    x ∈ insertKey k l ↔ x = k ∨ x ∈ l
  | [] => by simp [insertKey]
  | a :: t => by
    unfold insertKey
    split
    · simp
    · simp [mem_insertKey t]
      tauto

lemma mem_sortKeys {x : List String} : ∀ (l : List (List String)), x ∈ sortKeys l ↔ x ∈ l
  | [] => Iff.rfl
  | k :: t => by
    unfold sortKeys
    rw [mem_insertKey]
    simp [mem_sortKeys t]

lemma length_groupby (cols : List LocCol) (rows : List Row) :
    (groupby cols rows).length = ((rows.map (rowKey cols)).dedup).length := by
  simp [groupby, length_sortKeys]

lemma countP_actual_groupLines (flag : Bool) :
    ∀ gs, (groupLines flag gs).countP (fun ln => ln.kind == LineKind.actual) = gs.length
  | [] => rfl
  | g :: gs => by
    unfold groupLines
    cases flag with
    | false => simp [List.countP_cons, List.countP_append, countP_actual_groupLines false gs]
    | true => simp [List.countP_cons, List.countP_append, countP_actual_groupLines true gs]

lemma countP_forecast_groupLines (flag : Bool) :
    ∀ gs, (groupLines flag gs).countP (fun ln => ln.kind == LineKind.forecast) =
      if flag then gs.length else 0
  | [] => by cases flag <;> rfl
  | g :: gs => by
    unfold groupLines
    cases flag with
    | false => simp [List.countP_cons, List.countP_append, countP_forecast_groupLines false gs]
    | true => simp [List.countP_cons, List.countP_append, countP_forecast_groupLines true gs]

/-- C3: for a non-empty, coercible dataset carrying `included_zipcodes`:
with no location columns, `update_plot` draws exactly one actual-data line,
exactly one forecast line iff `show_forecast`, and shows the legend iff
`show_forecast`; with `stateabbr` present and `N > 1` distinct
location-key combinations, it draws exactly `N` actual lines and forces
the legend and the reserved bottom margin regardless of `show_forecast`. -/
theorem update_plot_line_counts (σ : Store) (st : ChartState) (r : Nat) (df : DataFrame)
    (h : σ.get? r = some df) (hne : df.rows ≠ [])
    (hc : (coercePrices df).isSome = true)
    (hincl : df.hasIncludedZipcodes = true) :
    (df.hasStateabbr = false → df.hasCity = false →
      ∃ c, (update_plot σ st (some r)).2.2 = .ok (.chart c) ∧
        c.lines.countP (fun ln => ln.kind == LineKind.actual) = 1 ∧
        c.lines.countP (fun ln => ln.kind == LineKind.forecast) =
          (if st.show_forecast then 1 else 0) ∧
        c.legend = st.show_forecast) ∧
    (df.hasStateabbr = true →
      ∀ N, N = ((df.rows.map (rowKey (locCols df))).dedup).length → 1 < N →
      ∃ c, (update_plot σ st (some r)).2.2 = .ok (.chart c) ∧
        c.lines.countP (fun ln => ln.kind == LineKind.actual) = N ∧
        c.legend = true ∧ c.bottomMargin = true) := by
  obtain ⟨df', hdf'⟩ := Option.isSome_iff_exists.mp hc
  have he := coercePrices_eq hdf'
  subst he
  rw [update_plot_some h hne hdf']
  constructor
  · intro hs hcy
    obtain ⟨t, ht⟩ := mkTitle_ok (coercedDF df) hincl
      (fun hh => absurd hh (by simp [coercedDF, hcy]))
    rw [renderData_ok st.show_forecast ht]
    have hcols : locCols (coercedDF df) = [] := by
      simp [locCols, coercedDF, hs]
    refine ⟨_, rfl, ?_, ?_, ?_⟩
    · simp only [mkChart, buildLines, hcols]
      cases st.show_forecast <;> simp [List.countP_cons]
    · simp only [mkChart, buildLines, hcols]
      cases st.show_forecast <;> simp [List.countP_cons]
    · simp only [mkChart, buildLines, hcols]
      cases st.show_forecast <;> simp
  · intro hs N hN hN1
    obtain ⟨t, ht⟩ := mkTitle_ok (coercedDF df) hincl (fun _ => hs)
    rw [renderData_ok st.show_forecast ht]
    obtain ⟨cs, hcols⟩ : ∃ cs, locCols df = LocCol.state :: cs := by
      unfold locCols
      rw [if_pos hs]
      exact ⟨_, rfl⟩
    have hcols' : locCols (coercedDF df) = LocCol.state :: cs := by
      rw [locCols_coerced, hcols]
    have hglen : (groupby (LocCol.state :: cs) (coercedDF df).rows).length = N := by
      rw [length_groupby, map_rowKey_coerced, hN, hcols]
    refine ⟨_, rfl, ?_, ?_, ?_⟩
    · simp only [mkChart, buildLines, hcols']
      rw [countP_actual_groupLines, hglen]
    · simp only [mkChart, buildLines, hcols']
      simp [hglen, hN1]
    · simp only [mkChart, buildLines, hcols']
      simp [hglen, hN1]

def dfNoLoc : DataFrame :=
  ⟨false, false, false, true,
    [⟨⟨2020, 1, 31⟩, .num 100, "", "", "", 3⟩, ⟨⟨2020, 2, 29⟩, .num 200, "", "", "", 3⟩]⟩

def dfTwoStates : DataFrame :=
  ⟨true, false, false, true,
    [⟨⟨2020, 1, 31⟩, .num 100, "TX", "", "", 3⟩, ⟨⟨2020, 1, 31⟩, .num 50, "CA", "", "", 2⟩]⟩

/-- Witness for C3 at concrete datasets (no-location case and 2-group case). -/
theorem update_plot_line_counts_witness :
    (∃ c, (update_plot [dfNoLoc] initState (some 0)).2.2 = .ok (.chart c) ∧
      c.lines.countP (fun ln => ln.kind == LineKind.actual) = 1 ∧
      c.lines.countP (fun ln => ln.kind == LineKind.forecast) =
        (if initState.show_forecast then 1 else 0) ∧
      c.legend = initState.show_forecast) ∧
    (∃ c, (update_plot [dfTwoStates] initState (some 0)).2.2 = .ok (.chart c) ∧
      c.lines.countP (fun ln => ln.kind == LineKind.actual) = 2 ∧
      c.legend = true ∧ c.bottomMargin = true) :=
  ⟨(update_plot_line_counts [dfNoLoc] initState 0 dfNoLoc rfl (by decide) (by decide)
      rfl).1 rfl rfl,
   (update_plot_line_counts [dfTwoStates] initState 0 dfTwoStates rfl (by decide) (by decide)
      rfl).2 rfl 2 (by decide) (by decide)⟩

lemma keyLeB_refl : ∀ a, keyLeB a a = true
  | [] => rfl
  | a :: as => by
    unfold keyLeB
    rw [if_neg (lt_irrefl a), if_pos rfl]
    exact keyLeB_refl as

lemma keyLeB_total : ∀ a b, keyLeB a b = true ∨ keyLeB b a = true
  | [], _ => Or.inl rfl
  | _ :: _, [] => Or.inr rfl
  | a :: as, b :: bs => by
    rcases lt_trichotomy a b with hlt | heq | hgt
    · left; unfold keyLeB; rw [if_pos hlt]
    · subst heq
      rcases keyLeB_total as bs with h | h
      · left; unfold keyLeB; rw [if_neg (lt_irrefl a), if_pos rfl]; exact h
      · right; unfold keyLeB; rw [if_neg (lt_irrefl a), if_pos rfl]; exact h
    · right; unfold keyLeB; rw [if_pos hgt]

lemma keyLeB_trans : ∀ a b c, keyLeB a b = true → keyLeB b c = true → keyLeB a c = true
  | [], _, _, _, _ => rfl
  | a :: as, [], c, hab, _ => by simp [keyLeB] at hab
  | a :: as, b :: bs, [], _, hbc => by simp [keyLeB] at hbc
  | a :: as, b :: bs, c :: cs, hab, hbc => by
    unfold keyLeB at hab hbc ⊢
    by_cases h1 : a < b
    · by_cases h2 : b < c
      · rw [if_pos (lt_trans h1 h2)]
      · by_cases h3 : b = c
        · subst h3; rw [if_pos h1]
        · rw [if_neg h2, if_neg h3] at hbc; exact absurd hbc (by simp)
    · by_cases h1e : a = b
      · subst h1e
        rw [if_neg h1, if_pos rfl] at hab
        by_cases h2 : a < c
        · rw [if_pos h2]
        · by_cases h3 : a = c
          · subst h3
            rw [if_neg h2, if_pos rfl] at hbc ⊢
            exact keyLeB_trans as bs cs hab hbc
          · rw [if_neg h2, if_neg h3] at hbc; exact absurd hbc (by simp)
      · rw [if_neg h1, if_neg h1e] at hab; exact absurd hab (by simp)

lemma chain'_insertKey (k : List String) :
    ∀ {l}, List.Chain' (fun a b => keyLeB a b = true) l →
      List.Chain' (fun a b => keyLeB a b = true) (insertKey k l)
  | [], _ => by simp [insertKey]
  | a :: t, hch => by
    unfold insertKey
    split
    · exact List.Chain'.cons (by assumption) hch
    · next hka =>
      have hak : keyLeB a k = true := (keyLeB_total a k).resolve_right hka
      rw [List.chain'_cons']
      refine ⟨?_, chain'_insertKey k (List.chain'_cons'.mp hch).2⟩
      · intro h hh
        cases t with
        | nil =>
          simp [insertKey] at hh
          subst hh; exact hak
        | cons b t' =>
          unfold insertKey at hh
          split at hh
          · simp at hh; subst hh; exact hak
          · simp at hh; subst hh
            exact (List.chain'_cons.mp hch).1

lemma chain'_sortKeys : ∀ l, List.Chain' (fun a b => keyLeB a b = true) (sortKeys l)
  | [] => List.chain'_nil
  | k :: t => chain'_insertKey k (chain'_sortKeys t)

lemma getLastD_default_irrel {α : Type} :
    ∀ (b : α) (t : List α) (d d' : α), (b :: t).getLastD d = (b :: t).getLastD d'
  | _, [], _, _ => rfl
  | b, c :: t', d, d' => by
    rw [List.getLastD_cons d b (c :: t'), List.getLastD_cons d' b (c :: t')]

lemma chain'_le_getLastD (d : List String) :
    ∀ (l : List (List String)), List.Chain' (fun a b => keyLeB a b = true) l →
      ∀ (x : List String), x ∈ l → keyLeB x (l.getLastD d) = true
  | [], _, x, hx => absurd hx (List.not_mem_nil x)
  | [a], _, x, hx => by
    have hxa : x = a := by simpa using hx
    rw [hxa]
    exact keyLeB_refl a
  | a :: b :: t, hch, x, hx => by
    rw [List.getLastD_cons, getLastD_default_irrel b t a d]
    rcases List.mem_cons.mp hx with hx | hx
    · subst hx
      exact keyLeB_trans x b _ (List.chain'_cons.mp hch).1
        (chain'_le_getLastD d (b :: t) (List.chain'_cons.mp hch).2 b (List.mem_cons_self b t))
    · exact chain'_le_getLastD d (b :: t) (List.chain'_cons.mp hch).2 x hx

lemma getLastD_mem {α : Type} (d : α) : ∀ (l : List α), l ≠ [] → l.getLastD d ∈ l
  | [], h => absurd rfl h
  | [a], _ => by simp
  | a :: b :: t, _ => by
    rw [List.getLastD_cons]
    exact List.mem_cons_of_mem a (getLastD_mem b (b :: t) (by simp))

lemma getLastD_map {α β : Type} (f : α → β) :
    ∀ (l : List α) (_ : l ≠ []) (d : β) (d' : α),
      (l.map f).getLastD d = f (l.getLastD d')
  | [], hl, _, _ => absurd rfl hl
  | [a], _, _, _ => rfl
  | a :: b :: t, _, d, d' => by
    rw [List.map_cons, List.getLastD_cons, List.getLastD_cons]
    exact getLastD_map f (b :: t) (by simp) (f a) a

lemma sortKeys_ne_nil {l : List (List String)} (h : l ≠ []) : sortKeys l ≠ [] := by
  intro hcon
  apply h
  have := length_sortKeys l
  rw [hcon] at this
  exact List.length_eq_zero.mp this.symm

lemma map_priceVal_coerced (df : DataFrame) :
    (coercedDF df).rows.map (fun rw => cellVal rw.price) =
      df.rows.map (fun rw => cellVal rw.price) := by
  simp only [coercedDF, List.map_map]
  exact List.map_congr_left (fun r _ => rfl)

lemma filter_coerced (df : DataFrame) (cols : List LocCol) (kmax : List String) :
    (coercedDF df).rows.filter (fun rw => rowKey cols rw == kmax) =
      (df.rows.filter (fun rw => rowKey cols rw == kmax)).map
        (fun rw => { rw with price := .num (cellVal rw.price) }) := by
  simp only [coercedDF]
  rw [List.filter_map]
  congr 1

lemma groupFc_last (df : DataFrame) (cols : List LocCol) (kmax : List String) :
    groupFc (kmax, (coercedDF df).rows.filter (fun rw => rowKey cols rw == kmax)) =
      calculate_forecast
        ((df.rows.filter (fun rw => rowKey cols rw == kmax)).map Row.date)
        ((df.rows.filter (fun rw => rowKey cols rw == kmax)).map
          (fun rw => cellVal rw.price)) 6 := by
  unfold groupFc
  rw [filter_coerced]
  simp only [List.map_map]
  rfl

/-- C7: for a non-empty coercible dataset, the Avg/Min/Max stats appended to
the title are computed over the actual price column only; when
`show_forecast` is on and location columns exist, the extra "Forecasted
Value (6 years)" stat is the last forecast value of the group iterated
last, and that group's key is the *maximum* key in the lexicographic group
order (groups are iterated in sorted-key order, not first-appearance
order). -/
theorem update_plot_stats_spec (σ : Store) (st : ChartState) (r : Nat) (df : DataFrame)
    (h : σ.get? r = some df) (hne : df.rows ≠ [])
    (hc : (coercePrices df).isSome = true)
    (hincl : df.hasIncludedZipcodes = true)
    (hcs : df.hasCity = true → df.hasStateabbr = true) :
    ∃ c, (update_plot σ st (some r)).2.2 = .ok (.chart c) ∧
      c.stats.mean = listMean (df.rows.map (fun rw => cellVal rw.price)) ∧
      c.stats.minP = listMin (df.rows.map (fun rw => cellVal rw.price)) ∧
      c.stats.maxP = listMax (df.rows.map (fun rw => cellVal rw.price)) ∧
      (st.show_forecast = false → c.stats.forecastLast = none) ∧
      (st.show_forecast = true → df.hasStateabbr = true →
        ∃ kmax, kmax ∈ df.rows.map (rowKey (locCols df)) ∧
          (∀ k ∈ df.rows.map (rowKey (locCols df)), keyLeB k kmax = true) ∧
          c.stats.forecastLast = some
            ((calculate_forecast
                ((df.rows.filter (fun rw => rowKey (locCols df) rw == kmax)).map Row.date)
                ((df.rows.filter (fun rw => rowKey (locCols df) rw == kmax)).map
                  (fun rw => cellVal rw.price)) 6).2.getLastD 0)) := by
  obtain ⟨df', hdf'⟩ := Option.isSome_iff_exists.mp hc
  have he := coercePrices_eq hdf'
  subst he
  rw [update_plot_some h hne hdf']
  obtain ⟨t, ht⟩ := mkTitle_ok (coercedDF df) hincl hcs
  rw [renderData_ok st.show_forecast ht]
  refine ⟨_, rfl, ?_, ?_, ?_, ?_, ?_⟩
  · simp only [mkChart]
    rw [map_priceVal_coerced]
  · simp only [mkChart]
    rw [map_priceVal_coerced]
  · simp only [mkChart]
    rw [map_priceVal_coerced]
  · intro hf
    simp [mkChart, hf]
  · intro hf hs
    obtain ⟨cs, hcols⟩ : ∃ cs, locCols df = LocCol.state :: cs := by
      unfold locCols
      rw [if_pos hs]
      exact ⟨_, rfl⟩
    have hcols' : locCols (coercedDF df) = LocCol.state :: cs := by
      rw [locCols_coerced, hcols]
    have hmapne : df.rows.map (rowKey (locCols df)) ≠ [] := by
      simp [hne]
    have hksne : (df.rows.map (rowKey (locCols df))).dedup ≠ [] :=
      fun hcon => hmapne ((List.dedup_eq_nil _).mp hcon)
    have hsk := sortKeys_ne_nil hksne
    refine ⟨(sortKeys ((df.rows.map (rowKey (locCols df))).dedup)).getLastD [], ?_, ?_, ?_⟩
    · exact List.mem_dedup.mp ((mem_sortKeys _).mp (getLastD_mem [] _ hsk))
    · intro k hk
      exact chain'_le_getLastD [] _ (chain'_sortKeys _) k
        ((mem_sortKeys _).mpr (List.mem_dedup.mpr hk))
    · have hgb : groupby (LocCol.state :: cs) (coercedDF df).rows =
          (sortKeys ((df.rows.map (rowKey (locCols df))).dedup)).map
            (fun k => (k, (coercedDF df).rows.filter
              (fun rw => rowKey (locCols df) rw == k))) := by
        unfold groupby
        rw [map_rowKey_coerced, ← hcols]
      have hlast : (groupby (LocCol.state :: cs) (coercedDF df).rows).getLastD ([], []) =
          ((sortKeys ((df.rows.map (rowKey (locCols df))).dedup)).getLastD [],
            (coercedDF df).rows.filter (fun rw => rowKey (locCols df) rw ==
              (sortKeys ((df.rows.map (rowKey (locCols df))).dedup)).getLastD [])) := by
        rw [hgb]
        exact getLastD_map _ _ hsk ([], []) []
      simp only [mkChart, buildLines, hcols', hf]
      rw [hlast, groupFc_last]
      simp

def dfStatsW : DataFrame :=
  ⟨true, false, false, true,
    [⟨⟨2020, 1, 31⟩, .num 100, "TX", "", "", 3⟩, ⟨⟨2020, 2, 29⟩, .num 110, "TX", "", "", 3⟩,
     ⟨⟨2020, 1, 31⟩, .num 50, "CA", "", "", 2⟩, ⟨⟨2020, 2, 29⟩, .num 60, "CA", "", "", 2⟩]⟩

/-- Witness for C7 at a concrete two-group dataset with the forecast on. -/
theorem update_plot_stats_spec_witness :
    ∃ c, (update_plot [dfStatsW] ⟨true, none⟩ (some 0)).2.2 = .ok (.chart c) ∧
      c.stats.mean = listMean (dfStatsW.rows.map (fun rw => cellVal rw.price)) ∧
      c.stats.minP = listMin (dfStatsW.rows.map (fun rw => cellVal rw.price)) ∧
      c.stats.maxP = listMax (dfStatsW.rows.map (fun rw => cellVal rw.price)) ∧
      ((⟨true, none⟩ : ChartState).show_forecast = false → c.stats.forecastLast = none) ∧
      ((⟨true, none⟩ : ChartState).show_forecast = true → dfStatsW.hasStateabbr = true →
        ∃ kmax, kmax ∈ dfStatsW.rows.map (rowKey (locCols dfStatsW)) ∧
          (∀ k ∈ dfStatsW.rows.map (rowKey (locCols dfStatsW)), keyLeB k kmax = true) ∧
          c.stats.forecastLast = some
            ((calculate_forecast
                ((dfStatsW.rows.filter
                  (fun rw => rowKey (locCols dfStatsW) rw == kmax)).map Row.date)
                ((dfStatsW.rows.filter
                  (fun rw => rowKey (locCols dfStatsW) rw == kmax)).map
                  (fun rw => cellVal rw.price)) 6).2.getLastD 0)) :=
  update_plot_stats_spec [dfStatsW] ⟨true, none⟩ 0 dfStatsW rfl (by decide) (by decide)
    rfl (fun hh => absurd hh (by decide))

lemma linOfDate_monthEndOfLin (l : Nat) : linOfDate (monthEndOfLin l) = l := by
  unfold linOfDate monthEndOfLin
  simp only
  omega

lemma monthEndOfLin_linOfDate {d : Date} (hv : d.Valid) :
    monthEndOfLin (linOfDate d) = monthEndOf d := by
  obtain ⟨hy, hm1, hm2, hd1, hd2⟩ := hv
  unfold monthEndOfLin monthEndOf linOfDate
  have h1 : (12 * d.year + (d.month - 1)) / 12 = d.year := by omega
  have h2 : (12 * d.year + (d.month - 1)) % 12 + 1 = d.month := by omega
  rw [h1, h2]

lemma dateLe_refl (a : Date) : dateLe a a := Or.inr ⟨rfl, Or.inr ⟨rfl, le_refl _⟩⟩

lemma dateLe_trans {a b c : Date} (h1 : dateLe a b) (h2 : dateLe b c) : dateLe a c := by
  unfold dateLe at h1 h2 ⊢
  omega

lemma headD_mem {α : Type} (d : α) : ∀ (l : List α), l ≠ [] → l.headD d ∈ l
  | [], h => absurd rfl h
  | a :: t, _ => List.mem_cons_self a t

lemma chain'_dateLe_head_last :
    ∀ (l : List Date), List.Chain' dateLe l → l ≠ [] →
      dateLe (l.headD date0) (l.getLastD date0)
  | [], _, h => absurd rfl h
  | [a], _, _ => dateLe_refl a
  | a :: b :: t, hch, _ => by
    rw [List.headD_cons, List.getLastD_cons, getLastD_default_irrel b t a date0]
    exact dateLe_trans (List.chain'_cons.mp hch).1
      (chain'_dateLe_head_last (b :: t) (List.chain'_cons.mp hch).2 (by simp))

lemma dateLe_linOfDate {a b : Date} (hva : a.Valid) (hvb : b.Valid) (h : dateLe a b) :
    linOfDate a ≤ linOfDate b := by
  obtain ⟨_, ha1, ha2, _, _⟩ := hva
  obtain ⟨_, hb1, hb2, _, _⟩ := hvb
  unfold dateLe at h
  unfold linOfDate
  omega

lemma addYearsCapped_le_monthEndOfLin (d : Date) (hv : d.Valid) (years : Nat) :
    dateLe (addYearsCapped years d) (monthEndOfLin (linOfDate d + years * 12)) := by
  obtain ⟨hy, hm1, hm2, hd1, hd2⟩ := hv
  unfold addYearsCapped monthEndOfLin linOfDate dateLe
  have h1 : (12 * d.year + (d.month - 1) + years * 12) / 12 = d.year + years := by omega
  have h2 : (12 * d.year + (d.month - 1) + years * 12) % 12 + 1 = d.month := by omega
  rw [h1, h2]
  right
  exact ⟨rfl, Or.inr ⟨rfl, min_le_right _ _⟩⟩

/-- The shape of `date_range(start, monthEndOfLin L, freq='ME')`: non-empty,
starts at the month-end of `start`'s month, proceeds through consecutive
month-ends, and finishes exactly at `monthEndOfLin L`. -/
lemma dateRangeME_spec (start : Date) (L : Nat) (hvs : start.Valid)
    (hle : linOfDate start ≤ L) :
    dateRangeME start (monthEndOfLin L) ≠ [] ∧
    (dateRangeME start (monthEndOfLin L)).headD date0 = monthEndOf start ∧
    List.Chain' (fun a b => linOfDate b = linOfDate a + 1 ∧
      a.day = daysInMonth a.year a.month ∧ b.day = daysInMonth b.year b.month)
      (dateRangeME start (monthEndOfLin L)) ∧
    (dateRangeME start (monthEndOfLin L)).getLastD date0 = monthEndOfLin L := by
  unfold dateRangeME
  have hcond : (monthEndOfLin L).day =
      daysInMonth (monthEndOfLin L).year (monthEndOfLin L).month := rfl
  simp only [if_pos hcond, linOfDate_monthEndOfLin]
  obtain ⟨m, hm⟩ : ∃ m, L + 1 - linOfDate start = m + 1 := ⟨L - linOfDate start, by omega⟩
  have hsm : linOfDate start + m = L := by omega
  refine ⟨?_, ?_, ?_, ?_⟩
  · intro hcon
    have := congrArg List.length hcon
    simp at this
    omega
  · rw [hm, List.range_succ_eq_map, List.map_cons, List.headD_cons, Nat.add_zero,
      monthEndOfLin_linOfDate hvs]
  · rw [List.chain'_map]
    rw [hm]
    exact (List.chain'_range_succ _ m).mpr (fun i _ => by
      rw [linOfDate_monthEndOfLin, linOfDate_monthEndOfLin]
      exact ⟨rfl, rfl, rfl⟩)
  · rw [hm, List.range_succ, List.map_append, List.map_cons, List.map_nil,
      List.getLastD_concat, hsm]

/-- C1 (amended): for ≥2 ascending valid dates, `calculate_forecast` returns
a non-empty sequence of consecutive month-ends that starts at the month-end
of the *first input date's month* (equal to the first input date only when
that date is a month-end), ends at least `years_to_forecast` years after
the last input date, together with the fitted line evaluated at every one
of those dates. -/
theorem calculate_forecast_spec (dates : List Date) (prices : List ℚ)
    (years_to_forecast : Nat) (h2 : 2 ≤ dates.length)
    (hs : List.Chain' dateLe dates) (hv : ∀ d ∈ dates, d.Valid) :
    (calculate_forecast dates prices years_to_forecast).1 ≠ [] ∧
    (calculate_forecast dates prices years_to_forecast).1.headD date0 =
      monthEndOf (dates.headD date0) ∧
    List.Chain' (fun a b => linOfDate b = linOfDate a + 1 ∧
        a.day = daysInMonth a.year a.month ∧ b.day = daysInMonth b.year b.month)
      (calculate_forecast dates prices years_to_forecast).1 ∧
    dateLe (addYearsCapped years_to_forecast (dates.getLastD date0))
      ((calculate_forecast dates prices years_to_forecast).1.getLastD date0) ∧
    (calculate_forecast dates prices years_to_forecast).2 =
      (calculate_forecast dates prices years_to_forecast).1.map
        (fun d => poly1eval (polyfit1 (dates.map dateOrdQ) prices) (dateOrdQ d)) := by
  have hne : dates ≠ [] := by
    intro hcon
    rw [hcon] at h2
    exact absurd h2 (by simp)
  have hvf : (dates.headD date0).Valid := hv _ (headD_mem date0 dates hne)
  have hvl : (dates.getLastD date0).Valid := hv _ (getLastD_mem date0 dates hne)
  have hfl : dateLe (dates.headD date0) (dates.getLastD date0) :=
    chain'_dateLe_head_last dates hs hne
  have hle : linOfDate (dates.headD date0) ≤
      linOfDate (dates.getLastD date0) + years_to_forecast * 12 :=
    Nat.le_trans (dateLe_linOfDate hvf hvl hfl) (Nat.le_add_right _ _)
  have hrange := dateRangeME_spec (dates.headD date0)
    (linOfDate (dates.getLastD date0) + years_to_forecast * 12) hvf hle
  have hfst : (calculate_forecast dates prices years_to_forecast).1 =
      dateRangeME (dates.headD date0)
        (monthEndOfLin (linOfDate (dates.getLastD date0) + years_to_forecast * 12)) := rfl
  refine ⟨?_, ?_, ?_, ?_, rfl⟩
  · rw [hfst]; exact hrange.1
  · rw [hfst]; exact hrange.2.1
  · rw [hfst]; exact hrange.2.2.1
  · rw [hfst, hrange.2.2.2]
    exact addYearsCapped_le_monthEndOfLin _ hvl _

/-- Witness for the amended C1 at a concrete 2-point ascending input. -/
theorem calculate_forecast_spec_witness :
    (calculate_forecast [⟨2020, 1, 15⟩, ⟨2020, 2, 15⟩] [100, 200] 6).1 ≠ [] ∧
    (calculate_forecast [⟨2020, 1, 15⟩, ⟨2020, 2, 15⟩] [100, 200] 6).1.headD date0 =
      monthEndOf (([(⟨2020, 1, 15⟩ : Date), ⟨2020, 2, 15⟩]).headD date0) ∧
    List.Chain' (fun a b => linOfDate b = linOfDate a + 1 ∧
        a.day = daysInMonth a.year a.month ∧ b.day = daysInMonth b.year b.month)
      (calculate_forecast [⟨2020, 1, 15⟩, ⟨2020, 2, 15⟩] [100, 200] 6).1 ∧
    dateLe (addYearsCapped 6 (([(⟨2020, 1, 15⟩ : Date), ⟨2020, 2, 15⟩]).getLastD date0))
      ((calculate_forecast [⟨2020, 1, 15⟩, ⟨2020, 2, 15⟩] [100, 200] 6).1.getLastD date0) ∧
    (calculate_forecast [⟨2020, 1, 15⟩, ⟨2020, 2, 15⟩] [100, 200] 6).2 =
      (calculate_forecast [⟨2020, 1, 15⟩, ⟨2020, 2, 15⟩] [100, 200] 6).1.map
        (fun d => poly1eval
          (polyfit1 (([(⟨2020, 1, 15⟩ : Date), ⟨2020, 2, 15⟩]).map dateOrdQ) [100, 200])
          (dateOrdQ d)) :=
  calculate_forecast_spec [⟨2020, 1, 15⟩, ⟨2020, 2, 15⟩] [100, 200] 6
    (by decide) (List.chain'_pair.mpr (by decide)) (by decide)

/-- C1 counterexample: on the 2-point ascending valid input
(2020-01-15, 2020-02-15) the returned date sequence does *not* start at the
first input date — it starts at that month's end, 2020-01-31. -/
theorem calculate_forecast_start_counterexample :
    List.Chain' dateLe [(⟨2020, 1, 15⟩ : Date), ⟨2020, 2, 15⟩] ∧
    (∀ d ∈ [(⟨2020, 1, 15⟩ : Date), ⟨2020, 2, 15⟩], d.Valid) ∧
    (calculate_forecast [⟨2020, 1, 15⟩, ⟨2020, 2, 15⟩] [100, 200] 6).1.headD date0 ≠
      (⟨2020, 1, 15⟩ : Date) ∧
    (calculate_forecast [⟨2020, 1, 15⟩, ⟨2020, 2, 15⟩] [100, 200] 6).1.headD date0 =
      (⟨2020, 1, 31⟩ : Date) :=
  ⟨List.chain'_pair.mpr (by decide), by decide, by decide, by decide⟩

lemma polyfit1_pair (x1 x2 y1 y2 : ℚ) (hx : x1 ≠ x2) :
    poly1eval (polyfit1 [x1, x2] [y1, y2]) x1 = y1 ∧
    poly1eval (polyfit1 [x1, x2] [y1, y2]) x2 = y2 := by
  have hsub : x1 - x2 ≠ 0 := sub_ne_zero.mpr hx
  have hden : (2:ℚ) * (x1*x1 + x2*x2) - (x1+x2)*(x1+x2) ≠ 0 := by
    have h : (2:ℚ) * (x1*x1 + x2*x2) - (x1+x2)*(x1+x2) = (x1-x2)^2 := by ring
    rw [h]
    exact pow_ne_zero 2 hsub
  unfold polyfit1 poly1eval
  norm_num [List.zip_cons_cons]
  constructor
  · field_simp
    ring
  · field_simp
    ring

/-- C6: for a 2-point input with distinct date ordinals, the degree-1
least-squares fit that `calculate_forecast` computes over the date ordinals
passes exactly through both input points, and the returned values are that
fitted line evaluated at every returned date. -/
theorem two_point_fit_exact (d1 d2 : Date) (p1 p2 : ℚ)
    (hne : toordinal d1 ≠ toordinal d2) :
    poly1eval (polyfit1 ([d1, d2].map dateOrdQ) [p1, p2]) (dateOrdQ d1) = p1 ∧
    poly1eval (polyfit1 ([d1, d2].map dateOrdQ) [p1, p2]) (dateOrdQ d2) = p2 ∧
    (calculate_forecast [d1, d2] [p1, p2] 6).2 =
      (calculate_forecast [d1, d2] [p1, p2] 6).1.map
        (fun d => poly1eval (polyfit1 ([d1, d2].map dateOrdQ) [p1, p2]) (dateOrdQ d)) := by
  have hx : dateOrdQ d1 ≠ dateOrdQ d2 := by
    unfold dateOrdQ
    intro hc
    exact hne (Nat.cast_injective hc)
  have h := polyfit1_pair (dateOrdQ d1) (dateOrdQ d2) p1 p2 hx
  exact ⟨h.1, h.2, rfl⟩

/-- Witness for C6 at a concrete 2-point input. -/
theorem two_point_fit_exact_witness :
    poly1eval (polyfit1 ([(⟨2020, 1, 15⟩ : Date), ⟨2020, 2, 15⟩].map dateOrdQ) [100, 211])
      (dateOrdQ ⟨2020, 1, 15⟩) = 100 ∧
    poly1eval (polyfit1 ([(⟨2020, 1, 15⟩ : Date), ⟨2020, 2, 15⟩].map dateOrdQ) [100, 211])
      (dateOrdQ ⟨2020, 2, 15⟩) = 211 ∧
    (calculate_forecast [⟨2020, 1, 15⟩, ⟨2020, 2, 15⟩] [100, 211] 6).2 =
      (calculate_forecast [⟨2020, 1, 15⟩, ⟨2020, 2, 15⟩] [100, 211] 6).1.map
        (fun d => poly1eval
          (polyfit1 ([(⟨2020, 1, 15⟩ : Date), ⟨2020, 2, 15⟩].map dateOrdQ) [100, 211])
          (dateOrdQ d)) :=
  two_point_fit_exact ⟨2020, 1, 15⟩ ⟨2020, 2, 15⟩ 100 211 (by decide)
